import Mathlib

/-!
Verification of the houdini-mcp bridge core against its design
specification.  The Python modules are embedded shallowly: pure
fragments become Lean functions, module-level mutable state becomes
explicit state passing, host (Houdini) behaviour is passed in as
explicit oracle records, and timestamps are modelled as integers.
-/

namespace HoudiniMCP

/-! ## Invalidation event subsystem (houdini_extraction/invalidation.py) -/

/-- One invalidation event, as built by the module's push helper: the
constant "invalidate" marker, a scope, a path, an event type name and a
timestamp (modelled as a natural number). -/
structure InvalidationEvent where
  event : String
  scope : String
  path : String
  event_type : String
  timestamp : Nat
deriving DecidableEq, Repr

/-- The module's queue capacity constant. -/
def _MAX_QUEUE_SIZE : Nat := 1000

/-- The append-then-trim step of the push helper, generalised over the
capacity: append the event, then if the length exceeds the capacity
delete the oldest entries down to the capacity. -/
def pushEventQueue (cap : Nat) (q : List InvalidationEvent) (e : InvalidationEvent) :
    List InvalidationEvent :=
  let q2 := q ++ [e]
  if q2.length > cap then q2.drop (q2.length - cap) else q2

/-- The push helper of the module, at the module's capacity. -/
def _push_event (q : List InvalidationEvent) (e : InvalidationEvent) :
    List InvalidationEvent :=
  pushEventQueue _MAX_QUEUE_SIZE q e

/-- Pushing a whole sequence of events in order. -/
def pushEvents (cap : Nat) (q : List InvalidationEvent) (evs : List InvalidationEvent) :
    List InvalidationEvent :=
  evs.foldl (pushEventQueue cap) q

/-- Draining: return the whole queue contents and clear the queue. -/
def drain_events (q : List InvalidationEvent) :
    List InvalidationEvent × List InvalidationEvent :=
  (q, [])

theorem pushEventQueue_eq (cap : Nat) (q : List InvalidationEvent) (e : InvalidationEvent) :
    pushEventQueue cap q e = (q ++ [e]).drop (q.length + 1 - cap) := by
  unfold pushEventQueue
  simp only [List.length_append, List.length_singleton]
  split
  · rfl
  · rename_i h
    rw [Nat.sub_eq_zero_of_le (by omega), List.drop_zero]

theorem pushEventQueue_length_le (cap : Nat) (q : List InvalidationEvent)
    (e : InvalidationEvent) (hq : q.length ≤ cap) :
    (pushEventQueue cap q e).length ≤ cap := by
  rw [pushEventQueue_eq]
  simp only [List.length_drop, List.length_append, List.length_singleton]
  omega

theorem pushEvents_eq (cap : Nat) (evs : List InvalidationEvent) :
    ∀ q : List InvalidationEvent, q.length ≤ cap →
      pushEvents cap q evs = (q ++ evs).drop (q.length + evs.length - cap) := by
  induction evs with
  | nil =>
    intro q hq
    simp [pushEvents, Nat.sub_eq_zero_of_le hq]
  | cons e rest ih =>
    intro q hq
    have step : pushEvents cap q (e :: rest) = pushEvents cap (pushEventQueue cap q e) rest := by
      simp [pushEvents]
    rw [step, ih _ (pushEventQueue_length_le cap q e hq), pushEventQueue_eq]
    have hd : q.length + 1 - cap ≤ (q ++ [e]).length := by
      simp only [List.length_append, List.length_singleton]
      omega
    rw [← List.drop_append_of_le_length hd, List.drop_drop]
    have hlists : (q ++ [e]) ++ rest = q ++ e :: rest := by
      rw [List.append_assoc, List.singleton_append]
    rw [hlists]
    congr 1
    simp only [List.length_drop, List.length_append, List.length_singleton, List.length_cons,
      List.length_nil]
    omega

/-- C1: pushing more events than the capacity keeps only the most recent
ones: for every capacity and every event sequence longer than the
capacity, a drain after the pushes returns exactly the last cap events
in push order, the drained list has length cap, a second drain returns
the empty list, and each single push appends its event (dropping only
the oldest entries), so no push ever rejects an event. -/
theorem c1_eventQueue_last_cap_drain (cap : Nat) (evs : List InvalidationEvent)
    (hcap : 0 < cap) (hN : cap < evs.length) :
    (drain_events (pushEvents cap [] evs)).1 = evs.drop (evs.length - cap) ∧
    (drain_events (pushEvents cap [] evs)).1.length = cap ∧
    (drain_events (drain_events (pushEvents cap [] evs)).2).1 = [] ∧
    ∀ (q : List InvalidationEvent) (e : InvalidationEvent),
      pushEventQueue cap q e = q.drop (q.length + 1 - cap) ++ [e] := by
  have hmain : pushEvents cap [] evs = evs.drop (evs.length - cap) := by
    rw [pushEvents_eq cap evs [] (by simp)]
    simp
  refine ⟨hmain, ?_, rfl, ?_⟩
  · show (pushEvents cap [] evs).length = cap
    rw [hmain]
    simp only [List.length_drop]
    omega
  · intro q e
    rw [pushEventQueue_eq]
    exact List.drop_append_of_le_length (by omega)

/-- A concrete event used by witnesses. -/
def sampleEvent (i : Nat) : InvalidationEvent :=
  { event := "invalidate", scope := "node", path := "/obj/geo1/scatter1",
    event_type := "parm_changed", timestamp := i }

/-- Witness for C1 at capacity 2 with three pushed events. -/
theorem c1_eventQueue_last_cap_drain_witness :
    (0 < 2 ∧ 2 < [sampleEvent 0, sampleEvent 1, sampleEvent 2].length) ∧
    ((drain_events (pushEvents 2 [] [sampleEvent 0, sampleEvent 1, sampleEvent 2])).1 =
        [sampleEvent 0, sampleEvent 1, sampleEvent 2].drop
          ([sampleEvent 0, sampleEvent 1, sampleEvent 2].length - 2) ∧
      (drain_events (pushEvents 2 [] [sampleEvent 0, sampleEvent 1, sampleEvent 2])).1.length = 2 ∧
      (drain_events
          (drain_events (pushEvents 2 [] [sampleEvent 0, sampleEvent 1, sampleEvent 2])).2).1 = [] ∧
      ∀ (q : List InvalidationEvent) (e : InvalidationEvent),
        pushEventQueue 2 q e = q.drop (q.length + 1 - 2) ++ [e]) :=
  ⟨⟨by decide, by decide⟩,
    c1_eventQueue_last_cap_drain 2 [sampleEvent 0, sampleEvent 1, sampleEvent 2]
      (by decide) (by decide)⟩

/-! ## Callback registration (start_invalidation / stop_invalidation) -/

/-- The root network paths the module monitors. -/
def _ROOT_PATHS : List String :=
  ["/obj", "/stage", "/tasks", "/out", "/shop", "/mat"]

/-- The Houdini side of registration as the module observes it: whether
the hou module imported, and which root networks exist. -/
structure HouEnv where
  inHoudini : Bool
  rootsPresent : List String
deriving DecidableEq, Repr

/-- The module state touched by registration: the single boolean guard
and the multiset (as a list) of callbacks currently registered with the
host. -/
structure InvalidationState where
  registered : Bool
  callbacks : List String
deriving DecidableEq, Repr

/-- The callbacks one registration pass installs: the hipFile callback,
one node callback per existing monitored root, and the playbar
callback. -/
def registrationCallbacks (env : HouEnv) : List String :=
  "hipFile" ::
    ((_ROOT_PATHS.filter (fun r => env.rootsPresent.contains r)).map
      (fun r => "node:" ++ r) ++ ["playbar"])

/-- start_invalidation: a no-op outside Houdini or when the guard is
already set; otherwise installs the callbacks and sets the guard. -/
def start_invalidation (env : HouEnv) (s : InvalidationState) : InvalidationState :=
  if !env.inHoudini || s.registered then s
  else { registered := true, callbacks := s.callbacks ++ registrationCallbacks env }

/-- stop_invalidation: a no-op outside Houdini or when the guard is not
set; otherwise removes the registered callbacks and clears the guard. -/
def stop_invalidation (env : HouEnv) (s : InvalidationState) : InvalidationState :=
  if !env.inHoudini || !s.registered then s
  else { registered := false,
         callbacks := (registrationCallbacks env).foldl (fun cs c => cs.erase c) s.callbacks }

/-- C9: registration is idempotent: running start_invalidation twice
equals running it once, any positive number of runs equals one run, and
stop_invalidation is a no-op on a state that was never started. -/
theorem c9_registration_idempotent (env : HouEnv) (s : InvalidationState)
    (h : s.registered = false) :
    (∀ t : InvalidationState,
      start_invalidation env (start_invalidation env t) = start_invalidation env t) ∧
    stop_invalidation env s = s ∧
    (∀ (n : Nat) (t : InvalidationState),
      (start_invalidation env)^[n + 1] t = start_invalidation env t) := by
  have idem : ∀ t : InvalidationState,
      start_invalidation env (start_invalidation env t) = start_invalidation env t := by
    intro t
    unfold start_invalidation
    by_cases henv : env.inHoudini
    · by_cases hreg : t.registered
      · simp [henv, hreg]
      · simp [henv, hreg]
    · simp [henv]
  refine ⟨idem, ?_, ?_⟩
  · unfold stop_invalidation
    simp [h]
  · intro n
    induction n with
    | zero => intro t; simp
    | succ m ih =>
      intro t
      rw [Function.iterate_succ_apply, ih (start_invalidation env t), idem]

/-- Witness for C9 on a concrete environment and a never-started state. -/
theorem c9_registration_idempotent_witness :
    ((⟨false, []⟩ : InvalidationState).registered = false) ∧
    ((∀ t : InvalidationState,
        start_invalidation ⟨true, ["/obj", "/out"]⟩
            (start_invalidation ⟨true, ["/obj", "/out"]⟩ t) =
          start_invalidation ⟨true, ["/obj", "/out"]⟩ t) ∧
      stop_invalidation ⟨true, ["/obj", "/out"]⟩ ⟨false, []⟩ = ⟨false, []⟩ ∧
      (∀ (n : Nat) (t : InvalidationState),
        (start_invalidation ⟨true, ["/obj", "/out"]⟩)^[n + 1] t =
          start_invalidation ⟨true, ["/obj", "/out"]⟩ t)) :=
  ⟨rfl, c9_registration_idempotent ⟨true, ["/obj", "/out"]⟩ ⟨false, []⟩ rfl⟩

/-! ## File reference staging (houdini_extraction/file_ref.py)

The filesystem is modelled as an association list from paths to
contents; writing prepends, and reading returns the most recent write,
which matches open-for-write truncation semantics. -/

/-- The shared extraction directory constant. -/
def EXTRACT_DIR : String := "/tmp/pixel_vision/extract"

/-- The default time-to-live constant, in seconds. -/
def DEFAULT_TTL : Nat := 300

/-- The metadata sidecar written next to a staged attribute payload, in
the shape built by handle_attrib_read (dict key "type" is the field
atype here; byte_order is absent for the JSON-encoded string branch). -/
structure AttribMetadata where
  node_path : String
  attrib_class : String
  attrib_name : String
  atype : String
  size : Nat
  count : Int
  total : Nat
  encoding : String
  byte_order : Option String
deriving DecidableEq, Repr

/-- A file's contents: raw bytes, or a JSON metadata sidecar. -/
inductive FsContent where
  | bytes (data : List Nat)
  | meta (m : AttribMetadata)
deriving DecidableEq, Repr

/-- The staging filesystem. -/
def FileSys : Type := List (String × FsContent)

/-- Writing a file (open for write truncates any previous version). -/
def fsWrite (fs : FileSys) (p : String) (c : FsContent) : FileSys :=
  (p, c) :: fs

/-- Reading a file: the most recently written contents at the path. -/
def fsRead (fs : FileSys) (p : String) : Option FsContent :=
  List.lookup p fs

/-- Python str.lstrip with dot: drop all leading dots. -/
def lstripDot (s : String) : String :=
  String.mk (s.data.dropWhile (fun c => c = '.'))

/-- The file_ref dict returned by the staging helpers. -/
structure FileRef where
  rtype : String
  path : String
  metadata_path : Option String
  format : String
  size_bytes : Nat
  ttl_seconds : Nat
deriving DecidableEq, Repr

/-- write_file_ref: write the bytes to a fresh uniquely suffixed file in
the extraction directory and describe it.  The random uuid hex suffix
is passed in explicitly. -/
def write_file_ref (fs : FileSys) (data : List Nat) (extension : String)
    (pfx : String) (ttl_seconds : Nat) (unique : String) : FileSys × FileRef :=
  let filepath := EXTRACT_DIR ++ "/" ++ (pfx ++ "_" ++ unique ++ extension)
  (fsWrite fs filepath (.bytes data),
   { rtype := "file_ref", path := filepath, metadata_path := none,
     format := lstripDot extension, size_bytes := data.length,
     ttl_seconds := ttl_seconds })

/-- write_file_ref_pair: write the binary payload, then the JSON
metadata sidecar under the same unique suffix, and describe both. -/
def write_file_ref_pair (fs : FileSys) (binary_data : List Nat)
    (metadata : AttribMetadata) (binary_ext : String) (pfx : String)
    (ttl_seconds : Nat) (unique : String) : FileSys × FileRef :=
  let bin_path := EXTRACT_DIR ++ "/" ++ (pfx ++ "_" ++ unique ++ binary_ext)
  let meta_path := EXTRACT_DIR ++ "/" ++ (pfx ++ "_" ++ unique ++ ".json")
  let fs1 := fsWrite fs bin_path (.bytes binary_data)
  let fs2 := fsWrite fs1 meta_path (.meta metadata)
  (fs2,
   { rtype := "file_ref", path := bin_path, metadata_path := some meta_path,
     format := lstripDot binary_ext, size_bytes := binary_data.length,
     ttl_seconds := ttl_seconds })

theorem string_append_left_cancel {a b c : String} (h : a ++ b = a ++ c) : b = c := by
  have hd := congrArg String.data h
  simp only [String.data_append] at hd
  exact String.ext (List.append_cancel_left hd)

/-- C10 (amended): write_file_ref stores exactly the given bytes at the
returned path and reports their exact length as size_bytes; and for
write_file_ref_pair with a binary extension other than ".json", the
binary file and the sidecar are distinct files under the same unique
suffix, the bytes at the path are the binary payload with size_bytes
their exact length, and the metadata_path holds the sidecar. -/
theorem c10_file_ref_size_and_pairing (fs : FileSys) (data : List Nat)
    (extension pfx : String) (ttl : Nat) (unique : String)
    (fs2 : FileSys) (binary_data : List Nat) (metadata : AttribMetadata)
    (binary_ext pfx2 : String) (ttl2 : Nat) (unique2 : String)
    (h : binary_ext ≠ ".json") :
    (write_file_ref fs data extension pfx ttl unique).2.size_bytes = data.length ∧
    fsRead (write_file_ref fs data extension pfx ttl unique).1
        (write_file_ref fs data extension pfx ttl unique).2.path =
      some (.bytes data) ∧
    (write_file_ref_pair fs2 binary_data metadata binary_ext pfx2 ttl2 unique2).2.size_bytes =
      binary_data.length ∧
    (write_file_ref_pair fs2 binary_data metadata binary_ext pfx2 ttl2 unique2).2.path =
      EXTRACT_DIR ++ "/" ++ (pfx2 ++ "_" ++ unique2 ++ binary_ext) ∧
    (write_file_ref_pair fs2 binary_data metadata binary_ext pfx2 ttl2 unique2).2.metadata_path =
      some (EXTRACT_DIR ++ "/" ++ (pfx2 ++ "_" ++ unique2 ++ ".json")) ∧
    fsRead (write_file_ref_pair fs2 binary_data metadata binary_ext pfx2 ttl2 unique2).1
        (write_file_ref_pair fs2 binary_data metadata binary_ext pfx2 ttl2 unique2).2.path =
      some (.bytes binary_data) ∧
    fsRead (write_file_ref_pair fs2 binary_data metadata binary_ext pfx2 ttl2 unique2).1
        (EXTRACT_DIR ++ "/" ++ (pfx2 ++ "_" ++ unique2 ++ ".json")) =
      some (.meta metadata) := by
  have hpath : EXTRACT_DIR ++ "/" ++ (pfx2 ++ "_" ++ unique2 ++ binary_ext) ≠
      EXTRACT_DIR ++ "/" ++ (pfx2 ++ "_" ++ unique2 ++ ".json") := by
    intro heq
    exact h (string_append_left_cancel (string_append_left_cancel heq))
  have hb : (EXTRACT_DIR ++ "/" ++ (pfx2 ++ "_" ++ unique2 ++ binary_ext) ==
      EXTRACT_DIR ++ "/" ++ (pfx2 ++ "_" ++ unique2 ++ ".json")) = false :=
    beq_eq_false_iff_ne.mpr hpath
  refine ⟨rfl, ?_, rfl, rfl, rfl, ?_, ?_⟩
  · simp [write_file_ref, fsWrite, fsRead, List.lookup]
  · simp only [write_file_ref_pair, fsWrite, fsRead, List.lookup, hb, beq_self_eq_true]
  · simp only [write_file_ref_pair, fsWrite, fsRead, List.lookup, beq_self_eq_true]

/-- Witness for C10 with a concrete pair write using a ".bin" binary
extension. -/
theorem c10_file_ref_size_and_pairing_witness :
    ((".bin" : String) ≠ ".json") ∧
    ((write_file_ref [] [7, 8] ".bin" "extract" 300 "u1").2.size_bytes = [7, 8].length ∧
      fsRead (write_file_ref [] [7, 8] ".bin" "extract" 300 "u1").1
          (write_file_ref [] [7, 8] ".bin" "extract" 300 "u1").2.path =
        some (.bytes [7, 8]) ∧
      (write_file_ref_pair [] [1, 2, 3]
            ⟨"/obj/g", "point", "P", "float", 3, 1, 1, "float32", some "little"⟩
            ".bin" "attrib_P" 300 "u2").2.size_bytes = [1, 2, 3].length ∧
      (write_file_ref_pair [] [1, 2, 3]
            ⟨"/obj/g", "point", "P", "float", 3, 1, 1, "float32", some "little"⟩
            ".bin" "attrib_P" 300 "u2").2.path =
        EXTRACT_DIR ++ "/" ++ ("attrib_P" ++ "_" ++ "u2" ++ ".bin") ∧
      (write_file_ref_pair [] [1, 2, 3]
            ⟨"/obj/g", "point", "P", "float", 3, 1, 1, "float32", some "little"⟩
            ".bin" "attrib_P" 300 "u2").2.metadata_path =
        some (EXTRACT_DIR ++ "/" ++ ("attrib_P" ++ "_" ++ "u2" ++ ".json")) ∧
      fsRead (write_file_ref_pair [] [1, 2, 3]
            ⟨"/obj/g", "point", "P", "float", 3, 1, 1, "float32", some "little"⟩
            ".bin" "attrib_P" 300 "u2").1
          (write_file_ref_pair [] [1, 2, 3]
            ⟨"/obj/g", "point", "P", "float", 3, 1, 1, "float32", some "little"⟩
            ".bin" "attrib_P" 300 "u2").2.path =
        some (.bytes [1, 2, 3]) ∧
      fsRead (write_file_ref_pair [] [1, 2, 3]
            ⟨"/obj/g", "point", "P", "float", 3, 1, 1, "float32", some "little"⟩
            ".bin" "attrib_P" 300 "u2").1
          (EXTRACT_DIR ++ "/" ++ ("attrib_P" ++ "_" ++ "u2" ++ ".json")) =
        some (.meta ⟨"/obj/g", "point", "P", "float", 3, 1, 1, "float32", some "little"⟩)) :=
  ⟨by decide,
    c10_file_ref_size_and_pairing [] [7, 8] ".bin" "extract" 300 "u1"
      [] [1, 2, 3] ⟨"/obj/g", "point", "P", "float", 3, 1, 1, "float32", some "little"⟩
      ".bin" "attrib_P" 300 "u2" (by decide)⟩

/-- The metadata used by the C10 counterexample, mirroring the string
branch of handle_attrib_read. -/
def c10Meta : AttribMetadata :=
  ⟨"/obj/g", "point", "name", "string", 1, 2, 2, "json", none⟩

/-- The pair write performed by the string branch of handle_attrib_read:
the binary extension is ".json", so the sidecar name collides with the
data file name. -/
def c10Pair : FileSys × FileRef :=
  write_file_ref_pair [] [91, 34, 97, 34, 93] c10Meta ".json" "attrib_name" 300 "abc123def456"

/-- C10 counterexample: with binary extension ".json" (exactly what the
staged-string branch passes), the returned metadata_path equals the
data path, and the contents found at the FileRef's path are the
metadata sidecar, not the binary data that size_bytes describes. -/
theorem c10_counterexample_json_extension :
    c10Pair.2.metadata_path = some c10Pair.2.path ∧
    fsRead c10Pair.1 c10Pair.2.path = some (.meta c10Meta) ∧
    c10Pair.2.size_bytes = 5 ∧
    fsRead c10Pair.1 c10Pair.2.path ≠ some (.bytes [91, 34, 97, 34, 93]) := by
  refine ⟨rfl, ?_, rfl, ?_⟩
  · simp [c10Pair, c10Meta, write_file_ref_pair, fsWrite, fsRead, List.lookup]
  · simp [c10Pair, c10Meta, write_file_ref_pair, fsWrite, fsRead, List.lookup]

/-! ## Garbage collection of the staging directory (gc_expired_files) -/

/-- A directory entry as gc_expired_files sees it: its name, whether it
is a regular file, and its last-modified time (timestamps are modelled
as integers, in seconds). -/
structure DirEntry where
  name : String
  isFile : Bool
  mtime : Int
deriving DecidableEq, Repr

/-- The deletion test of gc_expired_files: a regular file whose age at
scan time strictly exceeds the maximum age. -/
def gcExpired (now maxAge : Int) (e : DirEntry) : Bool :=
  e.isFile && decide (maxAge < now - e.mtime)

/-- One iteration of the gc loop: delete and count an expired file,
keep anything else. -/
def gcStep (now maxAge : Int) (acc : List DirEntry × Nat) (e : DirEntry) :
    List DirEntry × Nat :=
  if gcExpired now maxAge e then (acc.1, acc.2 + 1) else (acc.1 ++ [e], acc.2)

/-- gc_expired_files: if the directory does not exist, nothing happens
and the count is zero; otherwise scan every entry once with the time
captured before the scan, returning the surviving entries and the
number of deleted files. -/
def gc_expired_files (dirExists : Bool) (entries : List DirEntry)
    (now maxAge : Int) : List DirEntry × Nat :=
  if !dirExists then (entries, 0)
  else entries.foldl (gcStep now maxAge) ([], 0)

theorem gc_foldl_eq (now maxAge : Int) (entries : List DirEntry) :
    ∀ (acc : List DirEntry) (n : Nat),
      entries.foldl (gcStep now maxAge) (acc, n) =
        (acc ++ entries.filter (fun e => !gcExpired now maxAge e),
         n + (entries.filter (gcExpired now maxAge)).length) := by
  induction entries with
  | nil => intro acc n; simp
  | cons e rest ih =>
    intro acc n
    by_cases he : gcExpired now maxAge e
    · simp [List.foldl_cons, gcStep, he, ih]
      omega
    · simp [List.foldl_cons, gcStep, he, ih]

/-- C6: with the directory present, gc deletes exactly the regular
files strictly older than the maximum age at scan time and returns
their number; every file younger than the maximum age survives, every
expired regular file is gone, and non-file entries are untouched. -/
theorem c6_gc_deletes_exactly_expired (entries : List DirEntry) (now maxAge : Int) :
    gc_expired_files true entries now maxAge =
      (entries.filter (fun e => !gcExpired now maxAge e),
       (entries.filter (gcExpired now maxAge)).length) ∧
    (∀ e ∈ entries, e.isFile = true → now - e.mtime < maxAge →
      e ∈ (gc_expired_files true entries now maxAge).1) ∧
    (∀ e ∈ entries, e.isFile = true → maxAge < now - e.mtime →
      e ∉ (gc_expired_files true entries now maxAge).1) ∧
    (∀ e ∈ entries, e.isFile = false →
      e ∈ (gc_expired_files true entries now maxAge).1) := by
  have hmain : gc_expired_files true entries now maxAge =
      (entries.filter (fun e => !gcExpired now maxAge e),
       (entries.filter (gcExpired now maxAge)).length) := by
    unfold gc_expired_files
    simp [gc_foldl_eq now maxAge entries [] 0]
  refine ⟨hmain, ?_, ?_, ?_⟩
  · intro e he hf hfresh
    rw [hmain]
    simp only [List.mem_filter, Bool.not_eq_true']
    exact ⟨he, by simp [gcExpired, hf]; omega⟩
  · intro e he hf hold
    rw [hmain]
    simp only [List.mem_filter, Bool.not_eq_true']
    intro hcon
    rw [gcExpired] at hcon
    simp [hf, hold] at hcon
  · intro e he hf
    rw [hmain]
    simp only [List.mem_filter, Bool.not_eq_true']
    exact ⟨he, by simp [gcExpired, hf]⟩

/-- Witness for C6: one fresh file, one expired file, one directory
entry; applying the theorem at this directory. -/
theorem c6_gc_deletes_exactly_expired_witness :
    (gc_expired_files true
        [⟨"fresh.bin", true, 950⟩, ⟨"old.bin", true, 100⟩, ⟨"sub", false, 0⟩] 1000 300 =
      ([⟨"fresh.bin", true, 950⟩, ⟨"old.bin", true, 100⟩, ⟨"sub", false, 0⟩].filter
          (fun e => !gcExpired 1000 300 e),
       ([⟨"fresh.bin", true, 950⟩, ⟨"old.bin", true, 100⟩, ⟨"sub", false, 0⟩].filter
          (gcExpired 1000 300)).length) ∧
      (∀ e ∈ [⟨"fresh.bin", true, 950⟩, ⟨"old.bin", true, 100⟩,
          (⟨"sub", false, 0⟩ : DirEntry)],
        e.isFile = true → 1000 - e.mtime < 300 →
        e ∈ (gc_expired_files true
          [⟨"fresh.bin", true, 950⟩, ⟨"old.bin", true, 100⟩, ⟨"sub", false, 0⟩] 1000 300).1) ∧
      (∀ e ∈ [⟨"fresh.bin", true, 950⟩, ⟨"old.bin", true, 100⟩,
          (⟨"sub", false, 0⟩ : DirEntry)],
        e.isFile = true → 300 < 1000 - e.mtime →
        e ∉ (gc_expired_files true
          [⟨"fresh.bin", true, 950⟩, ⟨"old.bin", true, 100⟩, ⟨"sub", false, 0⟩] 1000 300).1) ∧
      (∀ e ∈ [⟨"fresh.bin", true, 950⟩, ⟨"old.bin", true, 100⟩,
          (⟨"sub", false, 0⟩ : DirEntry)],
        e.isFile = false →
        e ∈ (gc_expired_files true
          [⟨"fresh.bin", true, 950⟩, ⟨"old.bin", true, 100⟩, ⟨"sub", false, 0⟩] 1000 300).1)) :=
  c6_gc_deletes_exactly_expired
    [⟨"fresh.bin", true, 950⟩, ⟨"old.bin", true, 100⟩, ⟨"sub", false, 0⟩] 1000 300

/-! ## Bridge server (houdini_bridge/server.py)

Handler outcomes are modelled as a tagged union: a success payload, a
structured error dict with exactly one code field, or a raw error dict
whose only field is an unstructured message string. -/

/-- The shape of a value sent back to the client. -/
inductive BridgeOutcome where
  | ok (payload : String)
  | structuredError (code : String) (message : String) (hasContext : Bool)
  | rawError (message : String)
deriving DecidableEq, Repr

/-- The closed ten-element error-code taxonomy of the design. -/
def errorTaxonomy : List String :=
  ["NODE_NOT_FOUND", "PARM_NOT_FOUND", "TYPE_MISMATCH", "COOK_ERROR",
   "EXTRACTION_FAILED", "INVALID_PARAMS", "NOT_FOUND", "INTERNAL_ERROR",
   "HOST_UNAVAILABLE", "TIMEOUT"]

/-- The error codes an outcome carries. -/
def errorCodes : BridgeOutcome → List String
  | .structuredError c _ _ => [c]
  | _ => []

/-- Whether an outcome is a success. -/
def isSuccess : BridgeOutcome → Bool
  | .ok _ => true
  | _ => false

/-- HoudiniBridgeHandler._error_response: builds the contract error
dict with one code, one message, and optional context. -/
def _error_response (code : String) (message : String) (hasContext : Bool) :
    BridgeOutcome :=
  .structuredError code message hasContext

/-- HoudiniBridgeHandler.send_error_json: maps the HTTP status to a
contract code and sends a structured error body. -/
def send_error_json (status : Nat) (message : String) : BridgeOutcome :=
  _error_response
    (if status = 400 then "INVALID_PARAMS"
     else if status = 404 then "NOT_FOUND"
     else if status = 500 then "INTERNAL_ERROR" else "UNKNOWN")
    message false

/-! ### Execution serialization (require_main_thread) -/

/-- The class constant TIMEOUT = 30.0 of HoudiniBridgeHandler, in
seconds. -/
def TIMEOUT : Nat := 30

/-- Whether the hou module imported and a UI session is available. -/
structure HostUI where
  inHoudini : Bool
  uiAvailable : Bool
deriving DecidableEq, Repr

/-- A host-touching callable, with the wall-clock duration (seconds) it
takes to complete and the outcome it produces once run. -/
structure HostCallable where
  duration : Nat
  result : BridgeOutcome
deriving DecidableEq, Repr

/-- hdefereval.executeInMainThreadWithResult: blocks the calling thread
until the main thread has executed the callable, however long that
takes, and returns the callable's own result.  The API takes no
deadline. -/
def executeInMainThreadWithResult (f : HostCallable) : BridgeOutcome :=
  f.result

/-- The require_main_thread decorator: hand the callable to the main
thread when inside Houdini with a UI, otherwise call it in place. -/
def require_main_thread (env : HostUI) (f : HostCallable) : BridgeOutcome :=
  if env.inHoudini && env.uiAvailable then executeInMainThreadWithResult f
  else f.result

/-- Whether an outcome is a TIMEOUT failure of the taxonomy. -/
def isTimeoutFailure : BridgeOutcome → Bool
  | .structuredError c _ _ => c == "TIMEOUT"
  | _ => false

/-- A callable that takes 100 seconds, far beyond the 30-second
constant. -/
def c2SlowCall : HostCallable := ⟨100, .ok "cooked"⟩

/-- C2 counterexample: a call through require_main_thread whose
duration exceeds the TIMEOUT constant still returns the callable's own
result, not a TIMEOUT failure — the wrapper has no deadline at all. -/
theorem c2_counterexample_no_timeout_failure :
    TIMEOUT < c2SlowCall.duration ∧
    require_main_thread ⟨true, true⟩ c2SlowCall = .ok "cooked" ∧
    isTimeoutFailure (require_main_thread ⟨true, true⟩ c2SlowCall) = false :=
  ⟨by decide, rfl, rfl⟩

/-- C2 (amended): require_main_thread returns the callable's own result
unchanged, independently of the callable's duration; it never
synthesizes a TIMEOUT failure, and the TIMEOUT class constant is not
consulted.  The only timeout is enforced by the external MCP client's
HTTP layer. -/
theorem c2_require_main_thread_passthrough (env : HostUI) (f : HostCallable) :
    require_main_thread env f = f.result ∧
    (∀ d₁ d₂ : Nat, ∀ r : BridgeOutcome,
      require_main_thread env ⟨d₁, r⟩ = require_main_thread env ⟨d₂, r⟩) ∧
    isTimeoutFailure (require_main_thread env f) = isTimeoutFailure f.result := by
  refine ⟨?_, ?_, ?_⟩
  · unfold require_main_thread executeInMainThreadWithResult
    split <;> rfl
  · intro d₁ d₂ r
    unfold require_main_thread executeInMainThreadWithResult
    split <;> rfl
  · unfold require_main_thread executeInMainThreadWithResult
    split <;> rfl

/-! ### VGGT execute handler -/

/-- Python's substring containment test (the in operator). -/
def pyContains (needle hay : String) : Bool :=
  (hay.splitOn needle).length != 1

/-- What handle_vggt_execute observes of a node: its type name, whether
its PythonModule has an on_execute attribute, whether calling
on_execute raises (and with what message), and the loaded result.json
payload if one exists. -/
structure VggtNode where
  typeName : String
  hasOnExecute : Bool
  onExecuteRaises : Option String
  resultJson : Option String
deriving DecidableEq, Repr

/-- handle_vggt_execute: its error returns are bare message dicts with
no code field, unlike every _error_response-built failure. -/
def handle_vggt_execute (scene : String → Option VggtNode)
    (bodyPath : Option String) : BridgeOutcome :=
  match bodyPath with
  | none => send_error_json 400 "Missing 'path' parameter"
  | some path =>
    match scene path with
    | none => .rawError ("Node not found: " ++ path)
    | some node =>
      if !(pyContains "VGGT" node.typeName) then
        .rawError ("Node " ++ path ++ " is not a VGGT node (type: " ++ node.typeName ++ ")")
      else if !node.hasOnExecute then
        .rawError ("Node " ++ path ++ " has no on_execute callback")
      else
        match node.onExecuteRaises with
        | some msg => .rawError ("Execute failed: " ++ msg)
        | none => .ok ("vggt_execute:" ++ path)

/-- The VGGT execute outcome on a scene with no node at the requested
path. -/
def c3VggtOutcome : BridgeOutcome :=
  handle_vggt_execute (fun _ => none) (some "/obj/vggt1")

/-- C3 counterexample: the VGGT execute handler's node-not-found
outcome is a non-success response carrying no error code at all — a
raw unstructured string, outside the taxonomy invariant. -/
theorem c3_counterexample_vggt_raw_error :
    c3VggtOutcome = .rawError "Node not found: /obj/vggt1" ∧
    isSuccess c3VggtOutcome = false ∧
    errorCodes c3VggtOutcome = [] :=
  ⟨rfl, rfl, rfl⟩

/-- C3 (amended): every failure built through _error_response carries
exactly one code (a taxonomy code whenever its caller passes one), and
every send_error_json failure for the statuses the server uses (400,
404, 500) carries exactly one taxonomy code; but the VGGT execute
handler returns raw no-code error dicts, e.g. whenever the node lookup
fails. -/
theorem c3_error_code_discipline :
    (∀ (code msg : String) (hasCtx : Bool),
      errorCodes (_error_response code msg hasCtx) = [code] ∧
      isSuccess (_error_response code msg hasCtx) = false) ∧
    (∀ msg, errorCodes (send_error_json 400 msg) = ["INVALID_PARAMS"]) ∧
    (∀ msg, errorCodes (send_error_json 404 msg) = ["NOT_FOUND"]) ∧
    (∀ msg, errorCodes (send_error_json 500 msg) = ["INTERNAL_ERROR"]) ∧
    "INVALID_PARAMS" ∈ errorTaxonomy ∧
    "NOT_FOUND" ∈ errorTaxonomy ∧
    "INTERNAL_ERROR" ∈ errorTaxonomy ∧
    (∀ (scene : String → Option VggtNode) (path : String), scene path = none →
      handle_vggt_execute scene (some path) = .rawError ("Node not found: " ++ path) ∧
      errorCodes (handle_vggt_execute scene (some path)) = []) := by
  refine ⟨fun code msg hasCtx => ⟨rfl, rfl⟩, fun msg => rfl, fun msg => rfl, fun msg => rfl,
    by decide, by decide, by decide, ?_⟩
  intro scene path hnone
  constructor
  · simp [handle_vggt_execute, hnone]
  · simp [handle_vggt_execute, hnone, errorCodes]

/-- Witness for C3's amended theorem at the empty scene and a concrete
path. -/
theorem c3_error_code_discipline_witness :
    ((fun _ : String => (none : Option VggtNode)) "/obj/a" = none) ∧
    ((∀ (code msg : String) (hasCtx : Bool),
        errorCodes (_error_response code msg hasCtx) = [code] ∧
        isSuccess (_error_response code msg hasCtx) = false) ∧
      (∀ msg, errorCodes (send_error_json 400 msg) = ["INVALID_PARAMS"]) ∧
      (∀ msg, errorCodes (send_error_json 404 msg) = ["NOT_FOUND"]) ∧
      (∀ msg, errorCodes (send_error_json 500 msg) = ["INTERNAL_ERROR"]) ∧
      "INVALID_PARAMS" ∈ errorTaxonomy ∧
      "NOT_FOUND" ∈ errorTaxonomy ∧
      "INTERNAL_ERROR" ∈ errorTaxonomy ∧
      (∀ (scene : String → Option VggtNode) (path : String), scene path = none →
        handle_vggt_execute scene (some path) = .rawError ("Node not found: " ++ path) ∧
        errorCodes (handle_vggt_execute scene (some path)) = [])) :=
  ⟨rfl, c3_error_code_discipline⟩

/-! ### Batch endpoint (handle_batch)

The four internal sub-operation handlers touch host state; they are
passed in as an oracle indexed by position in the batch, returning
either a handler result or a raised exception message. -/

/-- The operation types handle_batch dispatches on. -/
def knownBatchTypes : List String := ["create", "connect", "set_parm", "set_flag"]

/-- The outcome of one sub-operation: dispatch on the type, convert a
raised exception into an EXTRACTION_FAILED error, and an unknown type
into a TYPE_MISMATCH error. -/
def opOutcome (exec : String → Except String BridgeOutcome)
    (opType : Option String) : BridgeOutcome :=
  match opType with
  | some t =>
    if t ∈ knownBatchTypes then
      match exec t with
      | .ok r => r
      | .error msg => _error_response "EXTRACTION_FAILED" msg false
    else _error_response "TYPE_MISMATCH" ("Unknown operation type: " ++ t) false
  | none => _error_response "TYPE_MISMATCH" "Unknown operation type: None" false

/-- One entry of the batch results list. -/
structure BatchResultEntry where
  index : Nat
  opType : Option String
  result : BridgeOutcome
deriving DecidableEq, Repr

/-- The response of the batch endpoint: the results-and-count body
together with the number of undo groups wrapping the loop, or an error
body. -/
inductive BatchResponse where
  | okResp (undoGroups : Nat) (results : List BatchResultEntry) (count : Nat)
  | errResp (outcome : BridgeOutcome)
deriving DecidableEq, Repr

/-- handle_batch: reject an empty operations list with a 400, otherwise
run every operation inside one undo group, recording per-operation
outcomes at their input index. -/
def handle_batch (exec : Nat → String → Except String BridgeOutcome)
    (operations : List (Option String)) : BatchResponse :=
  if operations.isEmpty then .errResp (send_error_json 400 "No operations provided")
  else
    .okResp 1
      (operations.enum.map (fun p => ⟨p.1, p.2, opOutcome (exec p.1) p.2⟩))
      operations.length

/-- The results list of a response, when it has one. -/
def resultsOf : BatchResponse → Option (List BatchResultEntry)
  | .okResp _ rs _ => some rs
  | .errResp _ => none

/-- The batch response for an empty operations list. -/
def c8EmptyBatch : BatchResponse :=
  handle_batch (fun _ _ => .ok (.ok "done")) []

/-- C8 counterexample: a batch request with zero sub-operations does
not get a zero-length results list back; it gets a structured 400
error body with no results list at all. -/
theorem c8_counterexample_empty_batch :
    c8EmptyBatch = .errResp (send_error_json 400 "No operations provided") ∧
    resultsOf c8EmptyBatch = none :=
  ⟨rfl, rfl⟩

/-- C8 (amended, for a nonempty operations list): the response carries
one undo group and a results list of the same length as the input,
index-aligned: the entry at index i records exactly the i-th
operation's own outcome, so a raised exception at one index becomes an
EXTRACTION_FAILED error there while every other index still records
its own result. -/
theorem c8_batch_index_aligned (exec : Nat → String → Except String BridgeOutcome)
    (ops : List (Option String)) (h : ops ≠ []) :
    ∃ results : List BatchResultEntry,
      handle_batch exec ops = .okResp 1 results ops.length ∧
      results.length = ops.length ∧
      (∀ (i : Nat) (hi : i < ops.length), ∃ hr : i < results.length,
        results.get ⟨i, hr⟩ = ⟨i, ops.get ⟨i, hi⟩, opOutcome (exec i) (ops.get ⟨i, hi⟩)⟩) ∧
      (∀ (i : Nat) (hi : i < ops.length) (t msg : String),
        ops.get ⟨i, hi⟩ = some t → t ∈ knownBatchTypes → exec i t = .error msg →
        ∃ hr : i < results.length,
          (results.get ⟨i, hr⟩).result = _error_response "EXTRACTION_FAILED" msg false ∧
          errorCodes ((results.get ⟨i, hr⟩).result) = ["EXTRACTION_FAILED"]) := by
  refine ⟨ops.enum.map (fun p => ⟨p.1, p.2, opOutcome (exec p.1) p.2⟩), ?_, ?_, ?_, ?_⟩
  · unfold handle_batch
    rw [if_neg (by simpa [List.isEmpty_iff] using h)]
  · simp
  · intro i hi
    refine ⟨by simpa using hi, ?_⟩
    simp [List.get_eq_getElem, List.getElem_map, List.getElem_enum]
  · intro i hi t msg hop hknown hexec
    refine ⟨by simpa using hi, ?_⟩
    have hentry :
        ((ops.enum.map (fun p => (⟨p.1, p.2, opOutcome (exec p.1) p.2⟩ : BatchResultEntry))).get
            ⟨i, by simpa using hi⟩) =
          ⟨i, ops.get ⟨i, hi⟩, opOutcome (exec i) (ops.get ⟨i, hi⟩)⟩ := by
      simp [List.get_eq_getElem, List.getElem_map, List.getElem_enum]
    rw [hentry]
    have hout : opOutcome (exec i) (ops.get ⟨i, hi⟩) =
        _error_response "EXTRACTION_FAILED" msg false := by
      rw [hop]
      simp [opOutcome, hknown, hexec]
    exact ⟨hout, by rw [hout]; rfl⟩

/-- Witness for C8: the spec's own scenario — three operations where
the second raises. -/
theorem c8_batch_index_aligned_witness :
    ([some "create", some "connect", some "set_parm"] ≠ ([] : List (Option String))) ∧
    (∃ results : List BatchResultEntry,
      handle_batch (fun i _ => if i = 1 then .error "boom" else .ok (.ok "done"))
          [some "create", some "connect", some "set_parm"] =
        .okResp 1 results [some "create", some "connect", some "set_parm"].length ∧
      results.length = [some "create", some "connect", some "set_parm"].length ∧
      (∀ (i : Nat) (hi : i < [some "create", some "connect", some "set_parm"].length),
        ∃ hr : i < results.length,
        results.get ⟨i, hr⟩ =
          ⟨i, [some "create", some "connect", some "set_parm"].get ⟨i, hi⟩,
            opOutcome ((fun i _ => if i = 1 then .error "boom" else .ok (.ok "done")) i)
              ([some "create", some "connect", some "set_parm"].get ⟨i, hi⟩)⟩) ∧
      (∀ (i : Nat) (hi : i < [some "create", some "connect", some "set_parm"].length)
          (t msg : String),
        [some "create", some "connect", some "set_parm"].get ⟨i, hi⟩ = some t →
        t ∈ knownBatchTypes →
        (fun i _ => if i = 1 then Except.error "boom" else Except.ok (BridgeOutcome.ok "done"))
            i t = .error msg →
        ∃ hr : i < results.length,
          (results.get ⟨i, hr⟩).result = _error_response "EXTRACTION_FAILED" msg false ∧
          errorCodes ((results.get ⟨i, hr⟩).result) = ["EXTRACTION_FAILED"])) :=
  ⟨by decide,
    c8_batch_index_aligned (fun i _ => if i = 1 then .error "boom" else .ok (.ok "done"))
      [some "create", some "connect", some "set_parm"] (by decide)⟩

/-! ## Bulk attribute reading (houdini_extraction/geo.py)

Float values are modelled by their IEEE-754 binary32 bit patterns
(naturals below 2^32): the staged format stores exactly four bytes per
float lane, and the claims quantify over values already exact at the
declared 32-bit width.  Int values are modelled as integers in the
int32 range, packed in two's complement. -/

/-- The inline-versus-file_ref threshold (1 MB). -/
def _INLINE_THRESHOLD : Nat := 1000000

/-- Python's effective slice bound: negative indices count from the
end, and both directions clamp into the list. -/
def pySliceIdx (len : Nat) (i : Int) : Nat :=
  if i < 0 then ((len : Int) + i).toNat else min i.toNat len

/-- Python's list slicing l[a:b]. -/
def pySlice {α : Type} (l : List α) (a b : Int) : List α :=
  (l.drop (pySliceIdx l.length a)).take (pySliceIdx l.length b - pySliceIdx l.length a)

theorem pySliceIdx_le (len : Nat) (i : Int) : pySliceIdx len i ≤ len := by
  unfold pySliceIdx
  split <;> omega

theorem pySlice_length {α : Type} (l : List α) (a b : Int) :
    (pySlice l a b).length = pySliceIdx l.length b - pySliceIdx l.length a := by
  have ha := pySliceIdx_le l.length a
  have hb := pySliceIdx_le l.length b
  unfold pySlice
  simp only [List.length_take, List.length_drop]
  omega

theorem pySlice_map {α β : Type} (f : α → β) (l : List α) (a b : Int) :
    pySlice (l.map f) a b = (pySlice l a b).map f := by
  unfold pySlice
  simp [List.map_drop, List.map_take]

/-- A homogeneous bulk attribute value array, as returned by the
bulk-read API: the constructor is the array's data type name. -/
inductive AttribValues where
  | floats (words : List Nat)
  | ints (vs : List Int)
  | strs (vs : List String)
deriving DecidableEq, Repr

/-- The array's element count. -/
def AttribValues.alen : AttribValues → Nat
  | .floats ws => ws.length
  | .ints vs => vs.length
  | .strs vs => vs.length

/-- attrib.dataType().name(). -/
def AttribValues.dataTypeName : AttribValues → String
  | .floats _ => "Float"
  | .ints _ => "Int"
  | .strs _ => "String"

/-- Slicing the flat array with Python semantics. -/
def AttribValues.slice : AttribValues → Int → Int → AttribValues
  | .floats ws, a, b => .floats (pySlice ws a b)
  | .ints vs, a, b => .ints (pySlice vs a b)
  | .strs vs, a, b => .strs (pySlice vs a b)

/-- A single attribute value (for the inline JSON payload). -/
inductive AVal where
  | f (bits : Nat)
  | i (v : Int)
  | s (v : String)
deriving DecidableEq, Repr

/-- Flattening a value array into the single-value representation. -/
def AttribValues.toList : AttribValues → List AVal
  | .floats ws => ws.map .f
  | .ints vs => vs.map .i
  | .strs vs => vs.map .s

theorem AttribValues.slice_toList (v : AttribValues) (a b : Int) :
    (v.slice a b).toList = pySlice v.toList a b := by
  cases v <;> simp [AttribValues.slice, AttribValues.toList, pySlice_map]

theorem AttribValues.toList_length (v : AttribValues) :
    v.toList.length = v.alen := by
  cases v <;> simp [AttribValues.toList, AttribValues.alen]

theorem AttribValues.slice_alen (v : AttribValues) (a b : Int) :
    (v.slice a b).alen = pySliceIdx v.alen b - pySliceIdx v.alen a := by
  cases v <;> simp [AttribValues.slice, AttribValues.alen, pySlice_length]

/-- Reshaping a flat list into consecutive tuples of width k, as the
inline branch does with its list comprehension over range(0, len, k). -/
def chunked {α : Type} (k : Nat) (l : List α) : List (List α) :=
  if _h : k = 0 then []
  else
    match l with
    | [] => []
    | x :: xs => ((x :: xs).take k) :: chunked k ((x :: xs).drop k)
termination_by l.length
decreasing_by
  simp only [List.length_drop, List.length_cons]
  omega

theorem chunked_flatten_aux {α : Type} (k : Nat) (hk : k ≠ 0) :
    ∀ (n : Nat) (l : List α), l.length ≤ n → (chunked k l).flatten = l := by
  intro n
  induction n with
  | zero =>
    intro l hl
    have : l = [] := List.eq_nil_of_length_eq_zero (by omega)
    subst this
    rw [chunked]
    simp [hk]
  | succ m ih =>
    intro l hl
    match l with
    | [] =>
      rw [chunked]
      simp [hk]
    | x :: xs =>
      rw [chunked]
      simp only [hk, dite_eq_ite, if_false, reduceDIte]
      rw [List.flatten_cons, ih ((x :: xs).drop k)
        (by simp only [List.length_drop, List.length_cons]; simp at hl; omega),
        List.take_append_drop]

theorem chunked_flatten {α : Type} (k : Nat) (hk : k ≠ 0) (l : List α) :
    (chunked k l).flatten = l :=
  chunked_flatten_aux k hk l.length l le_rfl

/-! ### Binary packing (struct.pack with little-endian 32-bit lanes) -/

/-- The four little-endian bytes of one 32-bit lane. -/
def pack_le32_word (w : Nat) : List Nat :=
  [w % 256, w / 256 % 256, w / 65536 % 256, w / 16777216 % 256]

/-- The two's-complement 32-bit word of an int32 value. -/
def int32ToWord (v : Int) : Nat :=
  (v % 4294967296).toNat

/-- struct.pack of a float32 array: four bytes per bit-pattern word. -/
def packFloats (ws : List Nat) : List Nat :=
  (ws.map pack_le32_word).flatten

/-- struct.pack of an int32 array: four two's-complement bytes per
value. -/
def packInts (vs : List Int) : List Nat :=
  ((vs.map int32ToWord).map pack_le32_word).flatten

/-- Reassemble little-endian 32-bit words from a byte stream; fails on
a trailing partial lane. -/
def unpack_le32_words : List Nat → Option (List Nat)
  | [] => some []
  | b0 :: b1 :: b2 :: b3 :: rest =>
    (unpack_le32_words rest).map
      (fun ws => (b0 + 256 * b1 + 65536 * b2 + 16777216 * b3) :: ws)
  | _ => none

/-- Read an int32 value back from its two's-complement word. -/
def wordToInt32 (w : Nat) : Int :=
  if w < 2147483648 then (w : Int) else (w : Int) - 4294967296

theorem unpack_pack_le32 (ws : List Nat) (hw : ∀ w ∈ ws, w < 4294967296) :
    unpack_le32_words (ws.map pack_le32_word).flatten = some ws := by
  induction ws with
  | nil => rfl
  | cons w rest ih =>
    have hwlt : w < 4294967296 := hw w (List.mem_cons_self w rest)
    have hrest : ∀ x ∈ rest, x < 4294967296 := fun x hx => hw x (List.mem_cons_of_mem w hx)
    simp only [List.map_cons, List.flatten_cons, pack_le32_word, List.cons_append,
      List.append_eq, List.nil_append, unpack_le32_words, ih hrest, Option.map_some']
    congr 2
    omega

theorem wordToInt32_int32ToWord (v : Int) (hlo : -2147483648 ≤ v) (hhi : v < 2147483648) :
    wordToInt32 (int32ToWord v) = v := by
  unfold wordToInt32 int32ToWord
  have hmod : v % 4294967296 = if 0 ≤ v then v else v + 4294967296 := by
    split <;> omega
  have hnonneg : 0 ≤ v % 4294967296 := Int.emod_nonneg v (by norm_num)
  have htonat : ((v % 4294967296).toNat : Int) = v % 4294967296 :=
    Int.toNat_of_nonneg hnonneg
  split
  · rename_i hsmall
    rw [← htonat] at hmod ⊢
    split at hmod <;> omega
  · rename_i hbig
    rw [Nat.not_lt] at hbig
    have : (2147483648 : Int) ≤ ((v % 4294967296).toNat : Int) := by exact_mod_cast hbig
    rw [htonat] at this
    rw [← htonat] at hmod ⊢
    split at hmod <;> omega

theorem map_wordToInt32_int32ToWord (vs : List Int)
    (hv : ∀ v ∈ vs, -2147483648 ≤ v ∧ v < 2147483648) :
    (vs.map int32ToWord).map wordToInt32 = vs := by
  induction vs with
  | nil => rfl
  | cons v rest ih =>
    have hvv := hv v (List.mem_cons_self v rest)
    simp only [List.map_cons, wordToInt32_int32ToWord v hvv.1 hvv.2,
      ih (fun x hx => hv x (List.mem_cons_of_mem v hx))]

theorem int32ToWord_lt (v : Int) : int32ToWord v < 4294967296 := by
  unfold int32ToWord
  have := Int.emod_nonneg v (show (4294967296 : Int) ≠ 0 by norm_num)
  have h2 : v % 4294967296 < 4294967296 := Int.emod_lt_of_pos v (by norm_num)
  omega

/-! ### The attribute read handler -/

/-- json.dumps escaping for one character of a string value. -/
def jsonEscapeChar (c : Char) : String :=
  if c = '"' ∨ c = '\\' then "\\" ++ String.mk [c] else String.mk [c]

/-- json.dumps of one string value. -/
def jsonDumpString (s : String) : String :=
  "\"" ++ String.join (s.data.map jsonEscapeChar) ++ "\""

/-- json.dumps of a list of string values. -/
def jsonDumpStrings (vs : List String) : String :=
  "[" ++ String.intercalate ", " (vs.map jsonDumpString) ++ "]"

/-- UTF-8 encoding of a string, as a byte list. -/
def strBytes (s : String) : List Nat :=
  s.toUTF8.toList.map (fun b => b.toNat)

/-- The request parameters of handle_attrib_read, after int() parsing
of start and count (their defaults are 0 and -1). -/
structure AttribReadParams where
  path : Option String
  attrib_class : String
  attrib_name : Option String
  start : Int
  count : Int
deriving DecidableEq, Repr

/-- What the handler observes of the host while resolving the request:
each lookup outcome, the classified type and tuple size, and the flat
bulk value array. -/
structure AttribHost where
  nodeExists : Bool
  hasGeometryAttr : Bool
  geoCooked : Bool
  attribFound : Bool
  atype : String
  asize : Nat
  readOk : Bool
  values : AttribValues
deriving DecidableEq, Repr

/-- total_elements: the tuple count of the flat array. -/
def attribTotal (asize : Nat) (len : Nat) : Nat :=
  if asize > 1 then len / asize else len

/-- The count after resolving the -1 sentinel to "to the end". -/
def attribCountAdj (start count : Int) (total : Nat) : Int :=
  if count = -1 then (total : Int) - start else count

/-- end = min(start + count, total). -/
def attribEnd (start count : Int) (total : Nat) : Int :=
  min (start + attribCountAdj start count total) (total : Int)

/-- The slice of the flat array selected by start/count. -/
def attribSliced (values : AttribValues) (start count : Int) (asize : Nat) :
    AttribValues :=
  if asize > 1 then
    values.slice (start * (asize : Int))
      (attribEnd start count (attribTotal asize values.alen) * (asize : Int))
  else values.slice start (attribEnd start count (attribTotal asize values.alen))

/-- estimated_bytes = len(values) * 4. -/
def estimatedBytes (v : AttribValues) : Nat := v.alen * 4

/-- The inline-versus-staged decision on the estimated size. -/
def inlineDecision (estimated : Nat) : Bool := estimated < _INLINE_THRESHOLD

/-- The inline values payload: flat scalars, or size-width tuples. -/
inductive InlineValues where
  | flat (vs : List AVal)
  | grouped (vss : List (List AVal))
deriving DecidableEq, Repr

/-- The values an inline payload lays out, in order. -/
def InlineValues.flattenVals : InlineValues → List AVal
  | .flat vs => vs
  | .grouped vss => vss.flatten

/-- A handle_attrib_read response: an error dict, an inline payload, or
a staged file_ref. -/
inductive AttribReadResponse where
  | errorResp (outcome : BridgeOutcome)
  | inline (node_path attrib_class attrib_name atype : String)
      (size : Nat) (count : Int) (total : Nat) (values : InlineValues)
  | fileRef (ref : FileRef)
deriving DecidableEq, Repr

/-- Whether a response is an error dict. -/
def AttribReadResponse.isError : AttribReadResponse → Bool
  | .errorResp _ => true
  | _ => false

/-- Whether a response is a staged file_ref. -/
def AttribReadResponse.isFileRef : AttribReadResponse → Bool
  | .fileRef _ => true
  | _ => false

/-- handle_attrib_read: parameter validation and host lookups, then
start/count clamping, the size estimate, and inline or staged
encoding.  The staging uuid suffix is passed in explicitly. -/
def handle_attrib_read (params : AttribReadParams) (host : AttribHost)
    (fs : FileSys) (unique : String) : FileSys × AttribReadResponse :=
  match params.path with
  | none =>
    (fs, .errorResp (_error_response "PARM_NOT_FOUND" "Missing 'path' parameter" false))
  | some path =>
  match params.attrib_name with
  | none =>
    (fs, .errorResp (_error_response "PARM_NOT_FOUND" "Missing 'attrib_name' parameter" false))
  | some attrib_name =>
  if !host.nodeExists then
    (fs, .errorResp (_error_response "NODE_NOT_FOUND"
      ("No node exists at path " ++ path) false))
  else if !host.hasGeometryAttr then
    (fs, .errorResp (_error_response "TYPE_MISMATCH"
      ("Node " ++ path ++ " does not have geometry output") false))
  else if !host.geoCooked then
    (fs, .errorResp (_error_response "COOK_ERROR"
      ("Node " ++ path ++ " has no cooked geometry") false))
  else if !host.attribFound then
    (fs, .errorResp (_error_response "PARM_NOT_FOUND"
      ("Attribute " ++ attrib_name ++ " not found in " ++ params.attrib_class ++ " class") false))
  else if !host.readOk then
    (fs, .errorResp (_error_response "EXTRACTION_FAILED"
      ("Failed to read attribute " ++ attrib_name) false))
  else
    let total_elements := attribTotal host.asize host.values.alen
    let endIdx := attribEnd params.start params.count total_elements
    let sliced := attribSliced host.values params.start params.count host.asize
    if inlineDecision (estimatedBytes sliced) then
      (fs, .inline path params.attrib_class attrib_name host.atype host.asize
        (endIdx - params.start) total_elements
        (if host.asize > 1 then .grouped (chunked host.asize sliced.toList)
         else .flat sliced.toList))
    else
      match sliced with
      | .strs vs =>
        let pr := write_file_ref_pair fs (strBytes (jsonDumpStrings vs))
          ⟨path, params.attrib_class, attrib_name, host.atype, host.asize,
            endIdx - params.start, total_elements, "json", none⟩
          ".json" ("attrib_" ++ attrib_name) DEFAULT_TTL unique
        (pr.1, .fileRef pr.2)
      | .floats ws =>
        let pr := write_file_ref_pair fs (packFloats ws)
          ⟨path, params.attrib_class, attrib_name, host.atype, host.asize,
            endIdx - params.start, total_elements, "float32", some "little"⟩
          ".bin" ("attrib_" ++ attrib_name) DEFAULT_TTL unique
        (pr.1, .fileRef pr.2)
      | .ints vs =>
        let pr := write_file_ref_pair fs (packInts vs)
          ⟨path, params.attrib_class, attrib_name, host.atype, host.asize,
            endIdx - params.start, total_elements, "int32", some "little"⟩
          ".bin" ("attrib_" ++ attrib_name) DEFAULT_TTL unique
        (pr.1, .fileRef pr.2)

/-- Modelled from the spec: the consumer-side unpacking of a staged
binary attribute payload, which is not part of this repository (the
bridge only writes the files).  Per the spec, the reader uses the
sidecar's declared element type (little-endian float32 or int32),
element count, and tuple arity to reassemble the flat array. -/
def unpackStaged (md : AttribMetadata) (bytes : List Nat) : Option AttribValues :=
  if md.encoding = "float32" then
    match unpack_le32_words bytes with
    | some ws => if ws.length = md.count.toNat * md.size then some (.floats ws) else none
    | none => none
  else if md.encoding = "int32" then
    match unpack_le32_words bytes with
    | some ws =>
      if ws.length = md.count.toNat * md.size then some (.ints (ws.map wordToInt32)) else none
    | none => none
  else none

theorem pySliceIdx_natCast (len n : Nat) : pySliceIdx len (n : Int) = min n len := by
  unfold pySliceIdx
  rw [if_neg (by omega)]
  simp

theorem slice_core {α : Type} (l : List α) (s e tot k : Nat)
    (hlen : l.length = tot * k) (he : e ≤ tot) :
    pySlice l ((s : Int) * (k : Int)) ((e : Int) * (k : Int)) =
      (l.drop (s * k)).take ((e - s) * k) := by
  have hcast : ∀ m : Nat, ((m : Int) * (k : Int)) = ((m * k : Nat) : Int) := by
    intro m
    push_cast
    ring
  rw [hcast s, hcast e]
  unfold pySlice
  rw [pySliceIdx_natCast, pySliceIdx_natCast]
  have hek : e * k ≤ l.length := by
    rw [hlen]
    exact Nat.mul_le_mul_right k he
  rcases le_or_lt s tot with hs | hs
  · have hsk : s * k ≤ l.length := by
      rw [hlen]
      exact Nat.mul_le_mul_right k hs
    rw [Nat.min_eq_left hsk, Nat.min_eq_left hek]
    congr 1
    rw [Nat.sub_mul]
  · have hsk : l.length ≤ s * k := by
      rw [hlen]
      exact Nat.mul_le_mul_right k hs.le
    rw [Nat.min_eq_right hsk, Nat.min_eq_left hek]
    have h1 : e * k - l.length = 0 := by omega
    have h2 : (e - s) * k = 0 := by
      have : e - s = 0 := by omega
      rw [this, Nat.zero_mul]
    rw [h1, h2, List.take_zero, List.take_zero]

theorem slice_core_length {α : Type} (l : List α) (s e tot k : Nat)
    (hlen : l.length = tot * k) (he : e ≤ tot) :
    ((l.drop (s * k)).take ((e - s) * k)).length = (e - s) * k := by
  simp only [List.length_take, List.length_drop]
  rcases le_or_lt s tot with hs | hs
  · have hsk : s * k ≤ l.length := by
      rw [hlen]
      exact Nat.mul_le_mul_right k hs
    have hek : (e - s) * k ≤ l.length - s * k := by
      rw [hlen, Nat.sub_mul]
      have := Nat.mul_le_mul_right k he
      omega
    omega
  · have : e - s = 0 := by omega
    rw [this, Nat.zero_mul]
    omega

/-- The fully clamped slice of the handler, characterised as "the
elements from start up to end = min(start + count, total)", flattened:
both the selected values and their exact count. -/
theorem attribSliced_spec (values : AttribValues) (start count : Int) (asize : Nat)
    (hstart : 0 ≤ start) (hcount : count = -1 ∨ 0 ≤ count) (hasize : 1 ≤ asize)
    (hdvd : asize ∣ values.alen) :
    (attribSliced values start count asize).toList =
      (values.toList.drop (start.toNat * asize)).take
        ((attribEnd start count (attribTotal asize values.alen) - start).toNat * asize) ∧
    (attribSliced values start count asize).alen =
      (attribEnd start count (attribTotal asize values.alen) - start).toNat * asize := by
  obtain ⟨ns, rfl⟩ : ∃ n : Nat, start = (n : Int) := ⟨start.toNat, by omega⟩
  have h0e : 0 ≤ attribEnd (ns : Int) count (attribTotal asize values.alen) := by
    unfold attribEnd attribCountAdj
    rcases hcount with hc | hc
    · rw [if_pos hc]
      have hx : (ns : Int) + (((attribTotal asize values.alen) : Int) - (ns : Int)) =
          ((attribTotal asize values.alen) : Int) := by ring
      rw [hx]
      simp
    · rw [if_neg (by omega)]
      have h1 : (0 : Int) ≤ (ns : Int) + count := by omega
      have h2 : (0 : Int) ≤ ((attribTotal asize values.alen) : Int) := by positivity
      omega
  obtain ⟨ne, hE⟩ : ∃ n : Nat,
      attribEnd (ns : Int) count (attribTotal asize values.alen) = (n : Int) :=
    ⟨(attribEnd (ns : Int) count (attribTotal asize values.alen)).toNat, by omega⟩
  have hetot : attribEnd (ns : Int) count (attribTotal asize values.alen) ≤
      ((attribTotal asize values.alen) : Int) := min_le_right _ _
  have hlen : values.toList.length = attribTotal asize values.alen * asize := by
    rw [AttribValues.toList_length]
    unfold attribTotal
    split
    · exact (Nat.div_mul_cancel hdvd).symm
    · have h1 : asize = 1 := by omega
      rw [h1, Nat.mul_one]
  have hetot' : ne ≤ attribTotal asize values.alen := by omega
  have hsub : (attribEnd (ns : Int) count (attribTotal asize values.alen) - (ns : Int)).toNat =
      ne - ns := by omega
  have hns : ((ns : Int)).toNat = ns := by omega
  have hmain : (attribSliced values (ns : Int) count asize).toList =
      (values.toList.drop (ns * asize)).take ((ne - ns) * asize) := by
    unfold attribSliced
    rw [hE]
    split
    · rw [AttribValues.slice_toList]
      exact slice_core values.toList ns ne (attribTotal asize values.alen) asize hlen hetot'
    · rename_i hnot
      have h1 : asize = 1 := by omega
      subst h1
      rw [AttribValues.slice_toList]
      have hc := slice_core values.toList ns ne (attribTotal 1 values.alen) 1
        (by simpa using hlen) hetot'
      simpa using hc
  rw [hsub, hns]
  constructor
  · exact hmain
  · rw [← AttribValues.toList_length, hmain]
    exact slice_core_length values.toList ns ne (attribTotal asize values.alen) asize hlen hetot'

/-- C7: for a resolvable read (all host lookups succeed), the range is
clamped, never rejected: the response is never an error; the selected
values are exactly the elements from start up to end = min(start +
count, total) (empty when start is at or beyond total); count = -1
selects everything from start to the end; and an inline response lays
out exactly those selected values. -/
theorem c7_attrib_read_range_clamping (params : AttribReadParams) (host : AttribHost)
    (fs : FileSys) (unique : String) (path aname : String)
    (hp : params.path = some path) (hn : params.attrib_name = some aname)
    (h1 : host.nodeExists = true) (h2 : host.hasGeometryAttr = true)
    (h3 : host.geoCooked = true) (h4 : host.attribFound = true) (h5 : host.readOk = true)
    (hstart : 0 ≤ params.start) (hcount : params.count = -1 ∨ 0 ≤ params.count)
    (hasize : 1 ≤ host.asize) (hdvd : host.asize ∣ host.values.alen) :
    (handle_attrib_read params host fs unique).2.isError = false ∧
    (attribSliced host.values params.start params.count host.asize).toList =
      (host.values.toList.drop (params.start.toNat * host.asize)).take
        ((attribEnd params.start params.count (attribTotal host.asize host.values.alen) -
            params.start).toNat * host.asize) ∧
    (params.count = -1 →
      attribEnd params.start params.count (attribTotal host.asize host.values.alen) =
        ((attribTotal host.asize host.values.alen) : Int)) ∧
    (∀ (np ac an ty : String) (sz : Nat) (ct : Int) (tt : Nat) (iv : InlineValues),
      (handle_attrib_read params host fs unique).2 = .inline np ac an ty sz ct tt iv →
      iv.flattenVals =
        (attribSliced host.values params.start params.count host.asize).toList) := by
  have spec := attribSliced_spec host.values params.start params.count host.asize
    hstart hcount hasize hdvd
  refine ⟨?_, spec.1, ?_, ?_⟩
  · simp only [handle_attrib_read, hp, hn, h1, h2, h3, h4, h5, Bool.not_true,
      Bool.false_eq_true, reduceIte]
    split
    · rfl
    · split <;> rfl
  · intro hc
    unfold attribEnd attribCountAdj
    rw [if_pos hc]
    have hx : params.start +
        (((attribTotal host.asize host.values.alen) : Int) - params.start) =
        ((attribTotal host.asize host.values.alen) : Int) := by ring
    rw [hx, min_self]
  · intro np ac an ty sz ct tt iv hresp
    simp only [handle_attrib_read, hp, hn, h1, h2, h3, h4, h5, Bool.not_true,
      Bool.false_eq_true, reduceIte] at hresp
    split at hresp
    · simp only [AttribReadResponse.inline.injEq] at hresp
      obtain ⟨-, -, -, -, -, -, -, hiv⟩ := hresp
      subst hiv
      split
      · rename_i hgt
        show (chunked host.asize
          (attribSliced host.values params.start params.count host.asize).toList).flatten = _
        exact chunked_flatten host.asize (by omega) _
      · rfl
    · split at hresp <;> simp at hresp

/-- Concrete parameters for the C7 witness: start 1, count -1. -/
def c7Params : AttribReadParams := ⟨some "/obj/geo1", "point", some "P", 1, -1⟩

/-- Concrete host data for the C7 witness: six ints as three 2-tuples. -/
def c7Host : AttribHost := ⟨true, true, true, true, "int", 2, true, .ints [1, 2, 3, 4, 5, 6]⟩

/-- Witness for C7 at a concrete read with a tuple attribute. -/
theorem c7_attrib_read_range_clamping_witness :
    (c7Params.path = some "/obj/geo1" ∧ c7Params.attrib_name = some "P" ∧
      c7Host.nodeExists = true ∧ c7Host.hasGeometryAttr = true ∧
      c7Host.geoCooked = true ∧ c7Host.attribFound = true ∧ c7Host.readOk = true ∧
      (0 : Int) ≤ c7Params.start ∧ (c7Params.count = -1 ∨ 0 ≤ c7Params.count) ∧
      1 ≤ c7Host.asize ∧ c7Host.asize ∣ c7Host.values.alen) ∧
    ((handle_attrib_read c7Params c7Host [] "u7").2.isError = false ∧
      (attribSliced c7Host.values c7Params.start c7Params.count c7Host.asize).toList =
        (c7Host.values.toList.drop (c7Params.start.toNat * c7Host.asize)).take
          ((attribEnd c7Params.start c7Params.count
              (attribTotal c7Host.asize c7Host.values.alen) -
              c7Params.start).toNat * c7Host.asize) ∧
      (c7Params.count = -1 →
        attribEnd c7Params.start c7Params.count (attribTotal c7Host.asize c7Host.values.alen) =
          ((attribTotal c7Host.asize c7Host.values.alen) : Int)) ∧
      (∀ (np ac an ty : String) (sz : Nat) (ct : Int) (tt : Nat) (iv : InlineValues),
        (handle_attrib_read c7Params c7Host [] "u7").2 = .inline np ac an ty sz ct tt iv →
        iv.flattenVals =
          (attribSliced c7Host.values c7Params.start c7Params.count c7Host.asize).toList)) :=
  ⟨⟨rfl, rfl, rfl, rfl, rfl, rfl, rfl, by decide, Or.inl rfl, by decide, by decide⟩,
    c7_attrib_read_range_clamping c7Params c7Host [] "u7" "/obj/geo1" "P"
      rfl rfl rfl rfl rfl rfl rfl (by decide) (Or.inl rfl) (by decide) (by decide)⟩

/-- C4: the encode decision is total and deterministic on the
estimate (flat element count times 4 bytes): for a resolvable read the
response is a FileRef exactly when the estimate reaches the
1,000,000-byte threshold and an inline (never error) response below
it, and the decision at the three boundary estimates is inline at
threshold - 1 and staged at the threshold and above. -/
theorem c4_inline_threshold_boundary (params : AttribReadParams) (host : AttribHost)
    (fs : FileSys) (unique : String) (path aname : String)
    (hp : params.path = some path) (hn : params.attrib_name = some aname)
    (h1 : host.nodeExists = true) (h2 : host.hasGeometryAttr = true)
    (h3 : host.geoCooked = true) (h4 : host.attribFound = true) (h5 : host.readOk = true) :
    ((handle_attrib_read params host fs unique).2.isFileRef = true ↔
      _INLINE_THRESHOLD ≤
        estimatedBytes (attribSliced host.values params.start params.count host.asize)) ∧
    (handle_attrib_read params host fs unique).2.isError = false ∧
    inlineDecision (_INLINE_THRESHOLD - 1) = true ∧
    inlineDecision _INLINE_THRESHOLD = false ∧
    inlineDecision (_INLINE_THRESHOLD + 1) = false := by
  refine ⟨?_, ?_, by decide, by decide, by decide⟩
  · simp only [handle_attrib_read, hp, hn, h1, h2, h3, h4, h5, Bool.not_true,
      Bool.false_eq_true, reduceIte]
    split
    · rename_i hdec
      simp only [inlineDecision, decide_eq_true_eq] at hdec
      simp only [AttribReadResponse.isFileRef, Bool.false_eq_true, false_iff, not_le]
      exact hdec
    · rename_i hdec
      simp only [inlineDecision, decide_eq_true_eq] at hdec
      split <;> (simp only [AttribReadResponse.isFileRef, true_iff]; omega)
  · simp only [handle_attrib_read, hp, hn, h1, h2, h3, h4, h5, Bool.not_true,
      Bool.false_eq_true, reduceIte]
    split
    · rfl
    · split <;> rfl

/-- Concrete parameters for the C4 witness. -/
def c4Params : AttribReadParams := ⟨some "/obj/geo1", "point", some "pscale", 0, -1⟩

/-- Concrete host data for the C4 witness: three scalar floats. -/
def c4Host : AttribHost := ⟨true, true, true, true, "float", 1, true, .floats [10, 20, 30]⟩

/-- Witness for C4 at a concrete small read. -/
theorem c4_inline_threshold_boundary_witness :
    (c4Params.path = some "/obj/geo1" ∧ c4Params.attrib_name = some "pscale" ∧
      c4Host.nodeExists = true ∧ c4Host.hasGeometryAttr = true ∧
      c4Host.geoCooked = true ∧ c4Host.attribFound = true ∧ c4Host.readOk = true) ∧
    (((handle_attrib_read c4Params c4Host [] "u4").2.isFileRef = true ↔
        _INLINE_THRESHOLD ≤
          estimatedBytes (attribSliced c4Host.values c4Params.start c4Params.count c4Host.asize)) ∧
      (handle_attrib_read c4Params c4Host [] "u4").2.isError = false ∧
      inlineDecision (_INLINE_THRESHOLD - 1) = true ∧
      inlineDecision _INLINE_THRESHOLD = false ∧
      inlineDecision (_INLINE_THRESHOLD + 1) = false) :=
  ⟨⟨rfl, rfl, rfl, rfl, rfl, rfl, rfl⟩,
    c4_inline_threshold_boundary c4Params c4Host [] "u4" "/obj/geo1" "pscale"
      rfl rfl rfl rfl rfl rfl rfl⟩

theorem attribSliced_floats (ws : List Nat) (s c : Int) (k : Nat) :
    ∃ ws', attribSliced (.floats ws) s c k = .floats ws' ∧ ∀ w ∈ ws', w ∈ ws := by
  unfold attribSliced AttribValues.slice
  split
  · exact ⟨_, rfl, fun w hw => List.drop_subset _ _ (List.take_subset _ _ hw)⟩
  · exact ⟨_, rfl, fun w hw => List.drop_subset _ _ (List.take_subset _ _ hw)⟩

theorem attribSliced_ints (vs : List Int) (s c : Int) (k : Nat) :
    ∃ vs', attribSliced (.ints vs) s c k = .ints vs' ∧ ∀ v ∈ vs', v ∈ vs := by
  unfold attribSliced AttribValues.slice
  split
  · exact ⟨_, rfl, fun v hv => List.drop_subset _ _ (List.take_subset _ _ hv)⟩
  · exact ⟨_, rfl, fun v hv => List.drop_subset _ _ (List.take_subset _ _ hv)⟩

theorem write_file_ref_pair_reads (fs : FileSys) (bin : List Nat) (md : AttribMetadata)
    (ext pfx : String) (ttl : Nat) (unique : String) (h : ext ≠ ".json") :
    (write_file_ref_pair fs bin md ext pfx ttl unique).2.path =
      EXTRACT_DIR ++ "/" ++ (pfx ++ "_" ++ unique ++ ext) ∧
    (write_file_ref_pair fs bin md ext pfx ttl unique).2.metadata_path =
      some (EXTRACT_DIR ++ "/" ++ (pfx ++ "_" ++ unique ++ ".json")) ∧
    fsRead (write_file_ref_pair fs bin md ext pfx ttl unique).1
        (EXTRACT_DIR ++ "/" ++ (pfx ++ "_" ++ unique ++ ext)) = some (.bytes bin) ∧
    fsRead (write_file_ref_pair fs bin md ext pfx ttl unique).1
        (EXTRACT_DIR ++ "/" ++ (pfx ++ "_" ++ unique ++ ".json")) = some (.meta md) := by
  have hpath : EXTRACT_DIR ++ "/" ++ (pfx ++ "_" ++ unique ++ ext) ≠
      EXTRACT_DIR ++ "/" ++ (pfx ++ "_" ++ unique ++ ".json") := by
    intro heq
    exact h (string_append_left_cancel (string_append_left_cancel heq))
  have hb : (EXTRACT_DIR ++ "/" ++ (pfx ++ "_" ++ unique ++ ext) ==
      EXTRACT_DIR ++ "/" ++ (pfx ++ "_" ++ unique ++ ".json")) = false :=
    beq_eq_false_iff_ne.mpr hpath
  refine ⟨rfl, rfl, ?_, ?_⟩
  · simp only [write_file_ref_pair, fsWrite, fsRead, List.lookup, hb, beq_self_eq_true]
  · simp only [write_file_ref_pair, fsWrite, fsRead, List.lookup, beq_self_eq_true]

/-- C5: staged numeric round-trip.  For a float or int attribute array
whose sliced payload reaches the staging threshold, the handler writes
a binary file plus a metadata sidecar, and unpacking the written bytes
using the sidecar's declared encoding (little-endian float32 or
int32), element count and tuple arity reproduces exactly the sliced
array that was packed (floats are identified with their binary32 bit
patterns, ints must lie in the int32 range). -/
theorem c5_staged_numeric_roundtrip (params : AttribReadParams) (host : AttribHost)
    (fs : FileSys) (unique : String) (path aname : String)
    (hp : params.path = some path) (hn : params.attrib_name = some aname)
    (h1 : host.nodeExists = true) (h2 : host.hasGeometryAttr = true)
    (h3 : host.geoCooked = true) (h4 : host.attribFound = true) (h5 : host.readOk = true)
    (hstart : 0 ≤ params.start) (hcount : params.count = -1 ∨ 0 ≤ params.count)
    (hasize : 1 ≤ host.asize) (hdvd : host.asize ∣ host.values.alen) :
    (∀ ws : List Nat, host.values = .floats ws → (∀ w ∈ ws, w < 4294967296) →
      _INLINE_THRESHOLD ≤
        estimatedBytes (attribSliced host.values params.start params.count host.asize) →
      ∃ (ref : FileRef) (md : AttribMetadata) (bin : List Nat),
        (handle_attrib_read params host fs unique).2 = .fileRef ref ∧
        fsRead (handle_attrib_read params host fs unique).1 ref.path = some (.bytes bin) ∧
        ref.metadata_path =
          some (EXTRACT_DIR ++ "/" ++ ("attrib_" ++ aname ++ "_" ++ unique ++ ".json")) ∧
        fsRead (handle_attrib_read params host fs unique).1
          (EXTRACT_DIR ++ "/" ++ ("attrib_" ++ aname ++ "_" ++ unique ++ ".json")) =
          some (.meta md) ∧
        md.encoding = "float32" ∧ md.byte_order = some "little" ∧ md.size = host.asize ∧
        unpackStaged md bin =
          some (attribSliced host.values params.start params.count host.asize)) ∧
    (∀ vs : List Int, host.values = .ints vs →
      (∀ v ∈ vs, -2147483648 ≤ v ∧ v < 2147483648) →
      _INLINE_THRESHOLD ≤
        estimatedBytes (attribSliced host.values params.start params.count host.asize) →
      ∃ (ref : FileRef) (md : AttribMetadata) (bin : List Nat),
        (handle_attrib_read params host fs unique).2 = .fileRef ref ∧
        fsRead (handle_attrib_read params host fs unique).1 ref.path = some (.bytes bin) ∧
        ref.metadata_path =
          some (EXTRACT_DIR ++ "/" ++ ("attrib_" ++ aname ++ "_" ++ unique ++ ".json")) ∧
        fsRead (handle_attrib_read params host fs unique).1
          (EXTRACT_DIR ++ "/" ++ ("attrib_" ++ aname ++ "_" ++ unique ++ ".json")) =
          some (.meta md) ∧
        md.encoding = "int32" ∧ md.byte_order = some "little" ∧ md.size = host.asize ∧
        unpackStaged md bin =
          some (attribSliced host.values params.start params.count host.asize)) := by
  have hspec := attribSliced_spec host.values params.start params.count host.asize
    hstart hcount hasize hdvd
  constructor
  · intro ws hv hw hth
    have hdec : inlineDecision (estimatedBytes
        (attribSliced host.values params.start params.count host.asize)) = false := by
      simp only [inlineDecision, decide_eq_false_iff_not, not_lt]
      omega
    obtain ⟨ws', hS0, hmem⟩ := attribSliced_floats ws params.start params.count host.asize
    have hS : attribSliced host.values params.start params.count host.asize = .floats ws' := by
      rw [hv]
      exact hS0
    have hresp : handle_attrib_read params host fs unique =
        ((write_file_ref_pair fs (packFloats ws')
            ⟨path, params.attrib_class, aname, host.atype, host.asize,
              attribEnd params.start params.count (attribTotal host.asize host.values.alen) -
                params.start,
              attribTotal host.asize host.values.alen, "float32", some "little"⟩
            ".bin" ("attrib_" ++ aname) DEFAULT_TTL unique).1,
          .fileRef (write_file_ref_pair fs (packFloats ws')
            ⟨path, params.attrib_class, aname, host.atype, host.asize,
              attribEnd params.start params.count (attribTotal host.asize host.values.alen) -
                params.start,
              attribTotal host.asize host.values.alen, "float32", some "little"⟩
            ".bin" ("attrib_" ++ aname) DEFAULT_TTL unique).2) := by
      have hdec' : inlineDecision (estimatedBytes (AttribValues.floats ws')) = false := by
        rw [← hS]
        exact hdec
      simp only [handle_attrib_read, hp, hn, h1, h2, h3, h4, h5, Bool.not_true,
        Bool.false_eq_true, reduceIte, hS, hdec']
    have hpair := write_file_ref_pair_reads fs (packFloats ws')
      ⟨path, params.attrib_class, aname, host.atype, host.asize,
        attribEnd params.start params.count (attribTotal host.asize host.values.alen) -
          params.start,
        attribTotal host.asize host.values.alen, "float32", some "little"⟩
      ".bin" ("attrib_" ++ aname) DEFAULT_TTL unique (by decide)
    have hwords : unpack_le32_words (packFloats ws') = some ws' :=
      unpack_pack_le32 ws' (fun w hw' => hw w (hmem w hw'))
    have hlen' : ws'.length = (attribEnd params.start params.count
        (attribTotal host.asize host.values.alen) - params.start).toNat * host.asize := by
      have h2' := hspec.2
      rw [hS] at h2'
      simpa [AttribValues.alen] using h2'
    refine ⟨(write_file_ref_pair fs (packFloats ws')
        ⟨path, params.attrib_class, aname, host.atype, host.asize,
          attribEnd params.start params.count (attribTotal host.asize host.values.alen) -
            params.start,
          attribTotal host.asize host.values.alen, "float32", some "little"⟩
        ".bin" ("attrib_" ++ aname) DEFAULT_TTL unique).2,
      ⟨path, params.attrib_class, aname, host.atype, host.asize,
        attribEnd params.start params.count (attribTotal host.asize host.values.alen) -
          params.start,
        attribTotal host.asize host.values.alen, "float32", some "little"⟩,
      packFloats ws', ?_, ?_, ?_, ?_, rfl, rfl, rfl, ?_⟩
    · rw [hresp]
    · rw [hresp]
      simp only
      rw [hpair.1]
      exact hpair.2.2.1
    · exact hpair.2.1
    · rw [hresp]
      exact hpair.2.2.2
    · rw [hS]
      simp [unpackStaged, hwords, hlen']
  · intro vs hv hvb hth
    have hdec : inlineDecision (estimatedBytes
        (attribSliced host.values params.start params.count host.asize)) = false := by
      simp only [inlineDecision, decide_eq_false_iff_not, not_lt]
      omega
    obtain ⟨vs', hS0, hmem⟩ := attribSliced_ints vs params.start params.count host.asize
    have hS : attribSliced host.values params.start params.count host.asize = .ints vs' := by
      rw [hv]
      exact hS0
    have hresp : handle_attrib_read params host fs unique =
        ((write_file_ref_pair fs (packInts vs')
            ⟨path, params.attrib_class, aname, host.atype, host.asize,
              attribEnd params.start params.count (attribTotal host.asize host.values.alen) -
                params.start,
              attribTotal host.asize host.values.alen, "int32", some "little"⟩
            ".bin" ("attrib_" ++ aname) DEFAULT_TTL unique).1,
          .fileRef (write_file_ref_pair fs (packInts vs')
            ⟨path, params.attrib_class, aname, host.atype, host.asize,
              attribEnd params.start params.count (attribTotal host.asize host.values.alen) -
                params.start,
              attribTotal host.asize host.values.alen, "int32", some "little"⟩
            ".bin" ("attrib_" ++ aname) DEFAULT_TTL unique).2) := by
      have hdec' : inlineDecision (estimatedBytes (AttribValues.ints vs')) = false := by
        rw [← hS]
        exact hdec
      simp only [handle_attrib_read, hp, hn, h1, h2, h3, h4, h5, Bool.not_true,
        Bool.false_eq_true, reduceIte, hS, hdec']
    have hpair := write_file_ref_pair_reads fs (packInts vs')
      ⟨path, params.attrib_class, aname, host.atype, host.asize,
        attribEnd params.start params.count (attribTotal host.asize host.values.alen) -
          params.start,
        attribTotal host.asize host.values.alen, "int32", some "little"⟩
      ".bin" ("attrib_" ++ aname) DEFAULT_TTL unique (by decide)
    have hwords : unpack_le32_words (packInts vs') = some (vs'.map int32ToWord) := by
      refine unpack_pack_le32 (vs'.map int32ToWord) ?_
      intro w hw'
      obtain ⟨v, hv', rfl⟩ := List.mem_map.mp hw'
      exact int32ToWord_lt v
    have hlen' : (vs'.map int32ToWord).length = (attribEnd params.start params.count
        (attribTotal host.asize host.values.alen) - params.start).toNat * host.asize := by
      have h2' := hspec.2
      rw [hS] at h2'
      simpa [AttribValues.alen] using h2'
    have hback : (vs'.map int32ToWord).map wordToInt32 = vs' :=
      map_wordToInt32_int32ToWord vs' (fun v hv' => hvb v (hmem v hv'))
    refine ⟨(write_file_ref_pair fs (packInts vs')
        ⟨path, params.attrib_class, aname, host.atype, host.asize,
          attribEnd params.start params.count (attribTotal host.asize host.values.alen) -
            params.start,
          attribTotal host.asize host.values.alen, "int32", some "little"⟩
        ".bin" ("attrib_" ++ aname) DEFAULT_TTL unique).2,
      ⟨path, params.attrib_class, aname, host.atype, host.asize,
        attribEnd params.start params.count (attribTotal host.asize host.values.alen) -
          params.start,
        attribTotal host.asize host.values.alen, "int32", some "little"⟩,
      packInts vs', ?_, ?_, ?_, ?_, rfl, rfl, rfl, ?_⟩
    · rw [hresp]
    · rw [hresp]
      simp only
      rw [hpair.1]
      exact hpair.2.2.1
    · exact hpair.2.1
    · rw [hresp]
      exact hpair.2.2.2
    · rw [hS]
      simp [unpackStaged, hwords, hlen', hback]

/-- Concrete parameters for the C5 witness. -/
def c5Params : AttribReadParams := ⟨some "/obj/geo1", "point", some "P", 0, -1⟩

/-- 250000 copies of the binary32 bit pattern of 1.0, one megabyte of
packed data. -/
def c5Words : List Nat := List.replicate 250000 1065353216

/-- Concrete host data for the C5 witness. -/
def c5Host : AttribHost := ⟨true, true, true, true, "float", 1, true, .floats c5Words⟩

theorem estimatedBytes_eq (v : AttribValues) : estimatedBytes v = v.alen * 4 := rfl

theorem c5_witness_threshold :
    _INLINE_THRESHOLD ≤
      estimatedBytes (attribSliced c5Host.values c5Params.start c5Params.count c5Host.asize) := by
  have halen : c5Host.values.alen = 250000 := by
    show c5Words.length = 250000
    unfold c5Words
    exact List.length_replicate 250000 1065353216
  have hs := (attribSliced_spec c5Host.values c5Params.start c5Params.count c5Host.asize
    (by decide) (Or.inl rfl) (by decide) (one_dvd _)).2
  rw [halen] at hs
  have hE : attribEnd c5Params.start c5Params.count (attribTotal c5Host.asize 250000) =
      250000 := by
    norm_num [attribEnd, attribCountAdj, attribTotal, c5Params, c5Host]
  rw [hE] at hs
  rw [estimatedBytes_eq, hs]
  simp only [c5Params, c5Host, _INLINE_THRESHOLD]
  omega

/-- Witness for C5: a one-megabyte float payload is staged and round
trips through the sidecar-described binary file. -/
theorem c5_staged_numeric_roundtrip_witness :
    (c5Params.path = some "/obj/geo1" ∧ c5Params.attrib_name = some "P" ∧
      c5Host.nodeExists = true ∧ c5Host.hasGeometryAttr = true ∧
      c5Host.geoCooked = true ∧ c5Host.attribFound = true ∧ c5Host.readOk = true ∧
      (0 : Int) ≤ c5Params.start ∧ (c5Params.count = -1 ∨ 0 ≤ c5Params.count) ∧
      1 ≤ c5Host.asize ∧ c5Host.asize ∣ c5Host.values.alen ∧
      c5Host.values = .floats c5Words ∧ (∀ w ∈ c5Words, w < 4294967296) ∧
      _INLINE_THRESHOLD ≤
        estimatedBytes (attribSliced c5Host.values c5Params.start c5Params.count c5Host.asize)) ∧
    (∃ (ref : FileRef) (md : AttribMetadata) (bin : List Nat),
      (handle_attrib_read c5Params c5Host [] "u5").2 = .fileRef ref ∧
      fsRead (handle_attrib_read c5Params c5Host [] "u5").1 ref.path = some (.bytes bin) ∧
      ref.metadata_path =
        some (EXTRACT_DIR ++ "/" ++ ("attrib_" ++ "P" ++ "_" ++ "u5" ++ ".json")) ∧
      fsRead (handle_attrib_read c5Params c5Host [] "u5").1
        (EXTRACT_DIR ++ "/" ++ ("attrib_" ++ "P" ++ "_" ++ "u5" ++ ".json")) =
        some (.meta md) ∧
      md.encoding = "float32" ∧ md.byte_order = some "little" ∧ md.size = c5Host.asize ∧
      unpackStaged md bin =
        some (attribSliced c5Host.values c5Params.start c5Params.count c5Host.asize)) :=
  ⟨⟨rfl, rfl, rfl, rfl, rfl, rfl, rfl, by decide, Or.inl rfl, by decide, one_dvd _, rfl,
      fun w hw => by
        have := List.eq_of_mem_replicate hw
        omega,
      c5_witness_threshold⟩,
    (c5_staged_numeric_roundtrip c5Params c5Host [] "u5" "/obj/geo1" "P"
        rfl rfl rfl rfl rfl rfl rfl (by decide) (Or.inl rfl) (by decide) (one_dvd _)).1
      c5Words rfl
      (fun w hw => by
        have := List.eq_of_mem_replicate hw
        omega)
      c5_witness_threshold⟩

end HoudiniMCP
